import Mathlib

/-!
Shallow embedding of `src/ci/changelog_helper.py` and `src/ci/sync-dist.py`
(the rust-lang/rustup CI helper scripts), with theorems checking the
natural-language specification against the code.

Text is modelled as `List Char`.  Python's `str.casefold` and the regex
class `\w` are modelled at ASCII level (`Char.toLower`, ASCII alphanumerics
plus underscore), which is faithful for the ASCII inputs these scripts are
given.  The recursive text scanners take a fuel argument equal to the input
length; every recursive call consumes one unit of fuel and strictly shortens
the remaining input, so fuel never runs out and the functions stay
structurally recursive (hence executable by the kernel).

External effects are made explicit: the `gh api` call of `github_name` is a
function parameter, and `sync-dist.py` is modelled as the list of
filesystem/process actions it performs.
-/

/- ### changelog_helper.py -/

/-- ASCII model of Python `str.casefold` applied to a username. -/
def casefold (s : List Char) : List Char := s.map Char.toLower

/-- `BOTS = {"renovate": "Renovate Bot"}`. -/
def BOTS : List (List Char × List Char) := [("renovate".toList, "Renovate Bot".toList)]

/-- Python `username in BOTS` / `BOTS[username]` as a single lookup. -/
def botsLookup (u : List Char) : Option (List Char) :=
  (BOTS.find? (fun p => p.1 == u)).map (fun p => p.2)

/-- Whether a username is a key of the bot alias table. -/
def isBot (u : List Char) : Bool := (botsLookup u).isSome

/-- Characters matched by the regex class `[\w-]` (ASCII model). -/
def isWordOrDash (c : Char) : Bool := c.isAlphanum || c = '_' || c = '-'

/-- One left-to-right scan of `re.findall(r"@([\w-]+)", text)`: at an `@`
followed by a nonempty run of word characters the run is captured and the
scan resumes after it; otherwise the scan advances one character. -/
def findMentionsAux : Nat → List Char → List (List Char)
  | 0, _ => []
  | _ + 1, [] => []
  | fuel + 1, c :: rest =>
    if c = '@' then
      match rest.takeWhile isWordOrDash with
      | [] => findMentionsAux fuel rest
      | d :: ds => (d :: ds) :: findMentionsAux fuel (rest.dropWhile isWordOrDash)
    else findMentionsAux fuel rest

def findMentions (s : List Char) : List (List Char) := findMentionsAux s.length s

/-- Python string `≤` (code-point lexicographic). -/
def lexLe : List Char → List Char → Bool
  | [], _ => true
  | _ :: _, [] => false
  | a :: as, b :: bs => if a = b then lexLe as bs else decide (a < b)

/-- The composite sort key of `extract_usernames`: Python tuple order on
`(name in BOTS, str.casefold(name))` (`False < True`, so bots sort last). -/
def userLe (a b : List Char) : Bool :=
  if isBot a = isBot b then lexLe (casefold a) (casefold b) else isBot b

/-- `extract_usernames`: find all `@name` mentions, deduplicate (`set(...)`),
and sort by the composite key.  The Lean sort is the stable `insertionSort`,
which agrees with Python's stable `sorted`; the set iteration order only
affects how casefold-equal distinct names tie-break. -/
def extract_usernames (text : List Char) : List (List Char) :=
  List.insertionSort (fun a b => userLe a b = true) (findMentions text).dedup

/-- `github_name`, with the external `gh api` call abstracted as `lookup`:
`lookup u = none` models any raised exception (process exit failure,
malformed JSON, missing `name` field); `lookup u = some nf` models a parsed
response whose `name` field is `nf` (`none` = JSON `null`; `data["name"] or
username` also falls back on the empty string).  The `except` branch prints
a diagnostic and falls off the function, returning Python `None`. -/
def github_name (lookup : List Char → Option (Option (List Char))) (u : List Char) :
    Option (List Char) :=
  match botsLookup u with
  | some fixed => some fixed
  | none =>
    match lookup u with
    | none => none
    | some nf =>
      match nf with
      | none => some u
      | some n => some (if n.isEmpty then u else n)

/-- Whether `github_name` prints its `"An error occurred"` diagnostic. -/
def github_name_diag (lookup : List Char → Option (Option (List Char))) (u : List Char) :
    Bool :=
  match botsLookup u with
  | some _ => false
  | none => (lookup u).isNone

/-- Python `f"- {github_name(username)} ({username})"`; `str(None)` is `"None"`. -/
def usernameLine (displayed : Option (List Char)) (u : List Char) : List Char :=
  "- ".toList ++ (match displayed with | none => "None".toList | some s => s)
    ++ " (".toList ++ u ++ ")".toList

/-- The lines printed by the `usernames` subcommand loop of `main`. -/
def usernames_output (lookup : List Char → Option (Option (List Char))) (text : List Char) :
    List (List Char) :=
  (extract_usernames text).map (fun u => usernameLine (github_name lookup u) u)

/-- `"https://github.com/rust-lang/rustup/pull/"`: the URL alternative of
`issue_pat`, and the base of the link written to the footer. -/
def urlPfx : List Char := "https://github.com/rust-lang/rustup/pull/".toList

/-- `pat` begins the list `s`. -/
def startsWithL : List Char → List Char → Bool
  | [], _ => true
  | _ :: _, [] => false
  | a :: pas, b :: bs => a = b && startsWithL pas bs

/-- One scan of
`re.findall(r"(#|https://github\.com/rust-lang/rustup/pull/)(\d+)", content)`.
Each match yields `(captured alternative, digit run)`; when a match attempt
fails, the scan advances one character. -/
def findRefsAux : Nat → List Char → List (List Char × List Char)
  | 0, _ => []
  | _ + 1, [] => []
  | fuel + 1, c :: rest =>
    if c = '#' then
      match rest.takeWhile Char.isDigit with
      | [] => findRefsAux fuel rest
      | d :: ds => (['#'], d :: ds) :: findRefsAux fuel (rest.dropWhile Char.isDigit)
    else if startsWithL urlPfx (c :: rest) then
      match ((c :: rest).drop urlPfx.length).takeWhile Char.isDigit with
      | [] => findRefsAux fuel rest
      | d :: ds =>
        (urlPfx, d :: ds) ::
          findRefsAux fuel (((c :: rest).drop urlPfx.length).dropWhile Char.isDigit)
    else findRefsAux fuel rest

def findRefs (s : List Char) : List (List Char × List Char) := findRefsAux s.length s

/-- Python `str.replace`: replace every non-overlapping occurrence of `pat`
in `s` (left to right) by `rep`.  `pat` is never empty at the call sites. -/
def replaceAllAux (rep pat : List Char) : Nat → List Char → List Char
  | 0, s => s
  | _ + 1, [] => []
  | fuel + 1, c :: rest =>
    if pat.isEmpty then c :: rest
    else if startsWithL pat (c :: rest) then
      rep ++ replaceAllAux rep pat fuel ((c :: rest).drop pat.length)
    else c :: replaceAllAux rep pat fuel rest

def replaceAll (s pat rep : List Char) : List Char := replaceAllAux rep pat s.length s

/-- The link token `f"[pr#{num}]"`. -/
def prLink (num : List Char) : List Char := "[pr#".toList ++ num ++ "]".toList

/-- The footer line `f"{link}: https://github.com/rust-lang/rustup/pull/{num}\n"`. -/
def footerLine (num : List Char) : List Char :=
  prLink num ++ ": ".toList ++ urlPfx ++ num ++ "\n".toList

/-- The `for prefix, num in re.findall(...)` loop of the `replace-nums`
branch of `main`, threading the mutated `content` and `footer`. -/
def replLoop : List (List Char × List Char) → List Char → List Char → List Char × List Char
  | [], content, footer => (content, footer)
  | (pfx, num) :: ms, content, footer =>
    replLoop ms (replaceAll content (pfx ++ num) (prLink num)) (footer ++ footerLine num)

/-- The `replace-nums` transformation: `(transformed body, footer)`;
`main` then prints `f"{content}\n{footer}"`. -/
def replace_nums (content : List Char) : List Char × List Char :=
  replLoop (findRefs content) content []

/-- The outcome of `changelog_helper.main`'s argument handling. -/
inductive ChAction where
  | usage
  | run (subcmd fileName : String)
deriving DecidableEq

/-- Argument dispatch of `changelog_helper.main` (lines 65-89): `help()` on
fewer than three argv entries or on an unknown subcommand; `sys.argv[:3]`
silently discards any further arguments. -/
def changelog_dispatch (argv : List String) : ChAction :=
  if argv.length < 3 then ChAction.usage
  else
    let subcmd := argv.getD 1 ""
    let fileName := argv.getD 2 ""
    if subcmd = "usernames" then ChAction.run subcmd fileName
    else if subcmd = "replace-nums" then ChAction.run subcmd fileName
    else ChAction.usage

/- ### sync-dist.py -/

/-- An observable action of `sync-dist.py`: a usage print, a `sys.exit`,
a filesystem mutation, the release-descriptor write, or a
`subprocess.check_call` invocation. -/
inductive SAction where
  | printUsage
  | exitCode (n : Nat)
  | rmtree (p : String)
  | makedirs (p : String)
  | removeFile (p : String)
  | writeReleaseToml (version : String)
  | invoke (args : List String)
deriving DecidableEq

def syncCommands : List String :=
  ["dev-to-local", "local-to-dev-archives", "update-dev-release",
   "local-to-prod-archives", "local-to-prod", "update-prod-release"]

/-- Python `list.remove`: drop the first occurrence. -/
def removeFirst : List String → String → List String
  | [], _ => []
  | a :: as, x => if a = x then as else a :: removeFirst as x

/-- `sub` occurs as a contiguous substring (Python `in` on strings). -/
def containsSub (sub : List Char) : List Char → Bool
  | [] => sub.isEmpty
  | c :: rest => startsWithL sub (c :: rest) || containsSub sub rest

/-- Substring test on strings, Python `sub in s`. -/
def strContains (s sub : String) : Bool := containsSub sub.toList s.toList

/-- `sys.argv` after the conditional `--live-run` removal at lines 65-67. -/
def syncArgvAfterFlag (argv : List String) : List String :=
  if argv.contains "--live-run" then removeFirst argv "--live-run" else argv

/-- Argument handling of `sync-dist.py` (lines 52-74): yields
`(command, archive_version, live_run)`, or `none` when `usage()` runs
(usage text plus `sys.exit(1)`).  `command` is `sys.argv[1]`, checked against
the six known commands before the flag removal, exactly as in the script. -/
def sync_parse (argv : List String) : Option (String × Option String × Bool) :=
  if argv.length < 2 then none
  else if syncCommands.contains (argv.getD 1 "") = false then none
  else if strContains (argv.getD 1 "") "archives" || strContains (argv.getD 1 "") "release" then
    if (syncArgvAfterFlag argv).length = 3 then
      some (argv.getD 1 "", some ((syncArgvAfterFlag argv).getD 2 ""),
            argv.contains "--live-run")
    else none
  else if (syncArgvAfterFlag argv).length = 2 then
    some (argv.getD 1 "", none, argv.contains "--live-run")
  else none

/-- `command.split(" ")` on the character list, accumulator reversed per word. -/
def splitSpAux : List Char → List Char → List (List Char)
  | [], acc => [acc.reverse]
  | c :: rest, acc =>
    if c = ' ' then acc.reverse :: splitSpAux rest [] else splitSpAux rest (c :: acc)

def splitSp (s : String) : List String := (splitSpAux s.toList []).map (fun w => String.mk w)

/-- `run_s3cmd` (lines 116-128): split the command string, append `--dryrun`
unless this is a live run, append the legacy-installer exclude unless the
command mentions cloudfront; the result is the argv handed to
`subprocess.check_call`. -/
def run_s3cmd_args (live_run : Bool) (command : String) : List String :=
  let s3cmd := splitSp command
  let s3cmd := if live_run = false then s3cmd ++ ["--dryrun"] else s3cmd
  if strContains command "cloudfront" = false then s3cmd ++ ["--exclude=*rustup-setup*"]
  else s3cmd

def dev_s3_bucket : String := "dev-static-rust-lang-org"
def prod_s3_bucket : String := "static-rust-lang-org"

/-- Bucket selection (lines 79-81). -/
def s3_bucket_of (command : String) : String :=
  if strContains command "prod" then prod_s3_bucket else dev_s3_bucket

/-- The `s3cmd` string built at lines 89-104.  The final branch covers the
two release-update commands; any other command string has already exited
through `usage`. -/
def main_s3cmd (command : String) (version : Option String) (bucket : String) : String :=
  if command = "dev-to-local" then
    "aws s3 cp --recursive s3://" ++ bucket ++ "/rustup/dist/ ./local-rustup/dist/"
  else if command = "local-to-dev-archives" ∨ command = "local-to-prod-archives" then
    "aws s3 cp --recursive ./local-rustup/dist/ s3://" ++ bucket ++ "/rustup/archive/"
      ++ version.getD "None" ++ "/"
  else if command = "local-to-prod" then
    "aws s3 cp --recursive local-rustup/dist/ s3://" ++ bucket ++ "/rustup/dist/"
  else
    "aws s3 cp ./local-rustup/release-stable.toml s3://" ++ bucket
      ++ "/rustup/release-stable.toml"

/-- The straight-line body of `sync-dist.py` after argument handling
(lines 76-171), as the ordered list of performed actions.  `fs p` tells
whether path `p` exists (`os.path.exists`). -/
def sync_body (command : String) (version : Option String) (live_run : Bool)
    (fs : String → Bool) : List SAction :=
  let bucket := s3_bucket_of command
  let pre : List SAction :=
    if command = "dev-to-local" then
      (if fs "local-rustup/dist" then [SAction.rmtree "local-rustup/dist"] else [])
        ++ [SAction.makedirs "local-rustup/dist"]
    else []
  let rel : List SAction :=
    if command = "update-dev-release" ∨ command = "update-prod-release" then
      [SAction.writeReleaseToml (version.getD "None")]
    else []
  let mainInv : List SAction :=
    [SAction.invoke (run_s3cmd_args live_run (main_s3cmd command version bucket))]
  let devLocalPost : List SAction :=
    if command = "dev-to-local" then
      (if fs "local-rustup/rustup-init.sh" then [SAction.removeFile "local-rustup/rustup-init.sh"]
       else [])
        ++ [SAction.invoke (run_s3cmd_args live_run
              ("aws s3 cp s3://" ++ bucket ++ "/rustup/rustup-init.sh ./local-rustup/rustup-init.sh"))]
        ++ (if fs "local-rustup/www" then [SAction.rmtree "local-rustup/www"] else [])
        ++ [SAction.makedirs "local-rustup/www",
            SAction.invoke (run_s3cmd_args live_run
              ("aws s3 cp --recursive s3://" ++ bucket ++ "/rustup/www/ ./local-rustup/www/"))]
    else []
  let prodPost : List SAction :=
    if command = "local-to-prod" then
      [SAction.invoke (run_s3cmd_args live_run
         ("aws s3 cp ./local-rustup/rustup-init.sh s3://" ++ bucket ++ "/rustup/rustup-init.sh")),
       SAction.invoke (run_s3cmd_args live_run
         ("aws s3 cp ./local-rustup/rustup-init.sh s3://" ++ bucket ++ "/rustup.sh")),
       SAction.invoke (run_s3cmd_args live_run
         ("aws s3 cp --recursive ./local-rustup/www/ s3://" ++ bucket ++ "/rustup/www/"))]
        ++ (if live_run then
              [SAction.invoke (run_s3cmd_args live_run
                 "aws cloudfront create-invalidation --distribution-id E70E9RGZ6Q27W --paths /*"),
               SAction.invoke (run_s3cmd_args live_run
                 "aws cloudfront create-invalidation --distribution-id E2XBMULPACBLNE --paths /*"),
               SAction.invoke (run_s3cmd_args live_run
                 "aws cloudfront create-invalidation --distribution-id EVJCMYBQ0EX26 --paths /*")]
            else [])
    else []
  let devRelPost : List SAction :=
    if command = "update-dev-release" ∧ live_run then
      [SAction.invoke (run_s3cmd_args live_run
         "aws cloudfront create-invalidation --distribution-id E30AO2GXMDY230 --paths /rustup/*"),
       SAction.invoke (run_s3cmd_args live_run
         "aws cloudfront create-invalidation --distribution-id E3OQOQ34607Z0A --paths /*")]
    else []
  let prodRelPost : List SAction :=
    if command = "update-prod-release" ∧ live_run then
      [SAction.invoke (run_s3cmd_args live_run
         "aws cloudfront create-invalidation --distribution-id E3NZU1LCBHH4A4 --paths /rustup/*")]
    else []
  pre ++ rel ++ mainInv ++ devLocalPost ++ prodPost ++ devRelPost ++ prodRelPost

/-- A full run of `sync-dist.py`: argument handling, then the body. -/
def sync_dist_run (argv : List String) (fs : String → Bool) : List SAction :=
  match sync_parse argv with
  | none => [SAction.printUsage, SAction.exitCode 1]
  | some (c, v, l) => sync_body c v l fs

/- ### Helper lemmas -/

/-- `lexLe` is total. -/
theorem lexLe_total : ∀ x y : List Char, lexLe x y = true ∨ lexLe y x = true
  | [], _ => Or.inl rfl
  | _ :: _, [] => Or.inr rfl
  | a :: as, b :: bs => by
    by_cases hab : a = b
    · subst hab
      rcases lexLe_total as bs with h | h
      · exact Or.inl (by simp [lexLe, h])
      · exact Or.inr (by simp [lexLe, h])
    · rcases lt_or_gt_of_ne hab with h | h
      · exact Or.inl (by simp [lexLe, hab, h])
      · exact Or.inr (by simp [lexLe, Ne.symm hab, h])

/-- `lexLe` is transitive. -/
theorem lexLe_trans : ∀ x y z : List Char,
    lexLe x y = true → lexLe y z = true → lexLe x z = true
  | [], _, _, _, _ => rfl
  | _ :: _, [], _, h, _ => by simp [lexLe] at h
  | _ :: _, _ :: _, [], _, h => by simp [lexLe] at h
  | a :: as, b :: bs, c :: cs, h1, h2 => by
    by_cases hab : a = b <;> by_cases hbc : b = c
    · subst hab; subst hbc
      simp only [lexLe, if_pos rfl] at h1 h2 ⊢
      exact lexLe_trans as bs cs h1 h2
    · subst hab
      simp only [lexLe, if_pos rfl, if_neg hbc, decide_eq_true_eq] at h2 ⊢
      exact h2
    · subst hbc
      simp only [lexLe, if_pos rfl, if_neg hab, decide_eq_true_eq] at h1 ⊢
      exact h1
    · simp only [lexLe, if_neg hab, if_neg hbc, decide_eq_true_eq] at h1 h2
      have hac : a < c := lt_trans h1 h2
      simp only [lexLe, if_neg (ne_of_lt hac), decide_eq_true_eq]
      exact hac

/-- The composite username comparison is total. -/
theorem userLe_total (a b : List Char) : userLe a b = true ∨ userLe b a = true := by
  unfold userLe
  by_cases h : isBot a = isBot b
  · rw [if_pos h, if_pos h.symm]
    exact lexLe_total _ _
  · rw [if_neg h, if_neg (Ne.symm h)]
    cases hb : isBot b
    · cases ha : isBot a
      · exact absurd (ha.trans hb.symm) h
      · exact Or.inr rfl
    · exact Or.inl rfl

/-- The composite username comparison is transitive. -/
theorem userLe_trans (a b c : List Char) (h1 : userLe a b = true) (h2 : userLe b c = true) :
    userLe a c = true := by
  unfold userLe at h1 h2 ⊢
  by_cases hab : isBot a = isBot b <;> by_cases hbc : isBot b = isBot c
  · rw [if_pos hab] at h1
    rw [if_pos hbc] at h2
    rw [if_pos (hab.trans hbc)]
    exact lexLe_trans _ _ _ h1 h2
  · rw [if_neg hbc] at h2
    rw [if_neg (fun e => hbc (hab.symm.trans e))]
    exact h2
  · rw [if_neg hab] at h1
    rw [if_neg (fun e => hab (e.trans hbc.symm))]
    exact hbc ▸ h1
  · rw [if_neg hab] at h1
    rw [if_neg hbc] at h2
    exact absurd (h1.trans h2.symm) hbc

/-- The footer accumulated by `replLoop` is the initial footer followed by
one `footerLine` per match, in match order. -/
theorem replLoop_snd (ms : List (List Char × List Char)) :
    ∀ content footer : List Char,
      (replLoop ms content footer).2
        = footer ++ (ms.map (fun m => footerLine m.2)).flatten := by
  induction ms with
  | nil => intro content footer; simp [replLoop]
  | cons m ms ih =>
    intro content footer
    obtain ⟨pfx, num⟩ := m
    simp [replLoop, ih, List.append_assoc]

/-- A member of a list of lists occurs contiguously in the flattening. -/
theorem flatten_mem_decomp {α : Type} {l : List α} {L : List (List α)} (h : l ∈ L) :
    ∃ x y, L.flatten = x ++ l ++ y := by
  induction L with
  | nil => cases h
  | cons a L ih =>
    rcases List.mem_cons.mp h with rfl | h'
    · exact ⟨[], L.flatten, by simp⟩
    · obtain ⟨x, y, hxy⟩ := ih h'
      exact ⟨a ++ x, y, by simp [hxy, List.append_assoc]⟩

/-- `run_s3cmd` always appends `--dryrun` when the live flag is off. -/
theorem dryrun_mem (cmd : String) : "--dryrun" ∈ run_s3cmd_args false cmd := by
  unfold run_s3cmd_args
  by_cases h : strContains cmd "cloudfront" = false <;> simp [h]

/-- An `invoke` action is never inside the optional `rmtree` singleton. -/
theorem invoke_nmem_ite_rmtree {P : Prop} [Decidable P] (args : List String) (p : String) :
    (SAction.invoke args ∈ if P then [SAction.rmtree p] else []) ↔ False := by
  split <;> simp

/-- An `invoke` action is never inside the optional `removeFile` singleton. -/
theorem invoke_nmem_ite_removeFile {P : Prop} [Decidable P] (args : List String) (p : String) :
    (SAction.invoke args ∈ if P then [SAction.removeFile p] else []) ↔ False := by
  split <;> simp

/-- A successful `sync_parse` validated the command against the six known
commands and reports whether `--live-run` was present in the argv. -/
theorem sync_parse_spec {argv : List String} {c : String} {v : Option String} {l : Bool}
    (h : sync_parse argv = some (c, v, l)) :
    syncCommands.contains c = true ∧ l = argv.contains "--live-run" := by
  unfold sync_parse at h
  split at h
  · cases h
  · split at h
    · cases h
    · next hcmd =>
      simp only [Bool.not_eq_false] at hcmd
      split at h
      · split at h
        · rw [Option.some.injEq, Prod.mk.injEq, Prod.mk.injEq] at h
          obtain ⟨rfl, -, rfl⟩ := h
          exact ⟨hcmd, rfl⟩
        · cases h
      · split at h
        · rw [Option.some.injEq, Prod.mk.injEq, Prod.mk.injEq] at h
          obtain ⟨rfl, -, rfl⟩ := h
          exact ⟨hcmd, rfl⟩
        · cases h

/- ### Claim theorems -/

/-- Claim C1 (code bug, evaluation at the failing input): on
`"fixes #42 and #42 again"` the code substitutes once per match, and the
second substitution re-matches `#42` inside the already-emitted token, so
the body becomes `fixes [pr[pr#42]] and [pr[pr#42]] again` and the footer
holds two identical mapping lines for identifier 42 rather than one. -/
theorem replace_nums_duplicate_match_eval :
    replace_nums ("fixes #42 and #42 again".toList) =
      ("fixes [pr[pr#42]] and [pr[pr#42]] again".toList,
       ("[pr#42]: https://github.com/rust-lang/rustup/pull/42\n"
         ++ "[pr#42]: https://github.com/rust-lang/rustup/pull/42\n").toList) := by decide

/-- Claim C2 counterexample: `extract_usernames` deduplicates with `set()`,
which is case sensitive, so `@Foo` and `@foo` both survive even though
their casefolded forms coincide. -/
theorem extract_usernames_casefold_counterexample :
    "Foo".toList ∈ extract_usernames ("@Foo and @foo".toList) ∧
    "foo".toList ∈ extract_usernames ("@Foo and @foo".toList) ∧
    "Foo".toList ≠ "foo".toList ∧
    casefold ("Foo".toList) = casefold ("foo".toList) := by decide

/-- Claim C2 (amended): for every input text, `extract_usernames` returns a
list with no duplicate entries (exact-string deduplication); case-folding is
used only as a sort key, so case-duplicates are not collapsed. -/
theorem extract_usernames_nodup (t : List Char) : (extract_usernames t).Nodup := by
  unfold extract_usernames
  exact ((List.perm_insertionSort _ _).nodup_iff).mpr (List.nodup_dedup _)

/-- Claim C3 (code bug, evaluation at the failing input): `replace-nums` is
not idempotent on already-tokenized text: on the body `[pr#42]`, which
contains only a token and no bare reference outside it, the regex still
matches the `#42` inside the token, so a second run rewrites the body to
`[pr[pr#42]]` and appends a footer line. -/
theorem replace_nums_not_idempotent_eval :
    replace_nums ("[pr#42]".toList) =
      ("[pr[pr#42]]".toList,
       "[pr#42]: https://github.com/rust-lang/rustup/pull/42\n".toList) ∧
    ("[pr[pr#42]]".toList : List Char) ≠ "[pr#42]".toList := by decide

/-- Claim C4 counterexample: when the external lookup fails for `alice`, the
`usernames` loop still prints a line, and that line carries the literal
display name `None` (Python `str(None)`), not the raw username fallback and
not an omitted line. -/
theorem usernames_failure_counterexample :
    usernames_output (fun _ => none) ("@alice".toList) = ["- None (alice)".toList] ∧
    usernames_output (fun _ => none) ("@alice".toList) ≠ [] ∧
    usernames_output (fun _ => none) ("@alice".toList) ≠ ["- alice (alice)".toList] := by
  decide

/-- Claim C4 (amended): when the external user lookup fails for a non-bot
username, the failure is caught (`github_name` returns Python `None`), the
diagnostic is emitted, the loop prints a line with the literal display name
`None` for that username, and the run continues: one output line is printed
per extracted username regardless of failures. -/
theorem usernames_failure_handling
    (lookup : List Char → Option (Option (List Char))) (text u : List Char)
    (hbot : botsLookup u = none) (hfail : lookup u = none) :
    github_name lookup u = none ∧
    github_name_diag lookup u = true ∧
    usernameLine (github_name lookup u) u = "- None (".toList ++ u ++ ")".toList ∧
    (usernames_output lookup text).length = (extract_usernames text).length ∧
    (u ∈ extract_usernames text →
      usernameLine (github_name lookup u) u ∈ usernames_output lookup text) := by
  have hg : github_name lookup u = none := by
    unfold github_name
    rw [hbot, hfail]
  refine ⟨hg, ?_, ?_, ?_, ?_⟩
  · unfold github_name_diag
    rw [hbot, hfail]
    rfl
  · rw [hg]
    rfl
  · unfold usernames_output
    rw [List.length_map]
  · intro hu
    unfold usernames_output
    exact List.mem_map_of_mem _ hu

/-- Witness for C4's amended theorem at the concrete failing lookup. -/
theorem usernames_failure_handling_witness :
    botsLookup ("alice".toList) = none ∧
    usernameLine (github_name (fun _ => none) ("alice".toList)) ("alice".toList)
      ∈ usernames_output (fun _ => none) ("@alice".toList) :=
  ⟨by decide,
   (usernames_failure_handling (fun _ => none) ("@alice".toList) ("alice".toList)
      (by decide) rfl).2.2.2.2 (by decide)⟩

/-- Claim C5: in a run without the `--live-run` flag, every external command
invoked by `sync-dist.py` carries the `--dryrun` flag, so no constructed
command has a form that would transfer data to remote storage. -/
theorem sync_dryrun_flag_always_present (argv : List String) (fs : String → Bool)
    (hl : argv.contains "--live-run" = false) (args : List String)
    (hm : SAction.invoke args ∈ sync_dist_run argv fs) : "--dryrun" ∈ args := by
  unfold sync_dist_run at hm
  cases hp : sync_parse argv with
  | none => rw [hp] at hm; simp at hm
  | some cvl =>
    obtain ⟨c, v, l⟩ := cvl
    rw [hp] at hm
    obtain ⟨hc, hlive⟩ := sync_parse_spec hp
    rw [hl] at hlive
    subst hlive
    have hc' : c = "dev-to-local" ∨ c = "local-to-dev-archives" ∨ c = "update-dev-release" ∨
        c = "local-to-prod-archives" ∨ c = "local-to-prod" ∨ c = "update-prod-release" := by
      have hmem : c ∈ syncCommands := by simpa using hc
      simpa [syncCommands] using hmem
    rcases hc' with rfl | rfl | rfl | rfl | rfl | rfl
    · simp [sync_body, invoke_nmem_ite_rmtree, invoke_nmem_ite_removeFile] at hm
      rcases hm with rfl | rfl | rfl <;> exact dryrun_mem _
    · simp [sync_body] at hm
      rw [hm]; exact dryrun_mem _
    · simp [sync_body] at hm
      rw [hm]; exact dryrun_mem _
    · simp [sync_body] at hm
      rw [hm]; exact dryrun_mem _
    · simp [sync_body] at hm
      rcases hm with rfl | rfl | rfl | rfl <;> exact dryrun_mem _
    · simp [sync_body] at hm
      rw [hm]; exact dryrun_mem _

/-- Witness for C5 at the concrete dry-run `dev-to-local` invocation. -/
theorem sync_dryrun_flag_witness :
    "--dryrun" ∈ ["aws", "s3", "cp", "--recursive",
      "s3://dev-static-rust-lang-org/rustup/dist/", "./local-rustup/dist/",
      "--dryrun", "--exclude=*rustup-setup*"] :=
  sync_dryrun_flag_always_present ["sync-dist.py", "dev-to-local"] (fun _ => false) rfl _
    (by decide)

/-- Claim C6: for every input text, the list returned by `extract_usernames`
is ordered by the composite key: between any earlier entry `a` and later
entry `b`, either `a` is a non-bot and `b` a bot, or they have the same bot
status and `a`'s casefolded name is lexicographically at most `b`'s.  In
particular every bot sorts after every non-bot and bot entries never
interleave with non-bot entries. -/
theorem extract_usernames_sorted_composite (t : List Char) :
    (extract_usernames t).Pairwise (fun a b =>
      (isBot a = false ∧ isBot b = true) ∨
      (isBot a = isBot b ∧ lexLe (casefold a) (casefold b) = true)) := by
  have hs : (extract_usernames t).Pairwise (fun a b => userLe a b = true) := by
    haveI : IsTotal (List Char) (fun a b => userLe a b = true) := ⟨userLe_total⟩
    haveI : IsTrans (List Char) (fun a b => userLe a b = true) := ⟨userLe_trans⟩
    unfold extract_usernames
    exact List.sorted_insertionSort _ _
  refine hs.imp ?_
  intro a b h
  unfold userLe at h
  by_cases hab : isBot a = isBot b
  · exact Or.inr ⟨hab, by rwa [if_pos hab] at h⟩
  · rw [if_neg hab] at h
    cases ha : isBot a
    · exact Or.inl ⟨rfl, h⟩
    · exact absurd (ha.trans h.symm) hab

/-- Claim C7: for a username in the bot alias table, `github_name` returns
the fixed display name from the table, and the result is identical for any
two behaviors of the external collaborator — the lookup is never consulted. -/
theorem github_name_bot_no_external_call
    (lookup1 lookup2 : List Char → Option (Option (List Char)))
    (u fixed : List Char) (h : botsLookup u = some fixed) :
    github_name lookup1 u = some fixed ∧ github_name lookup1 u = github_name lookup2 u := by
  have e : ∀ lk : List Char → Option (Option (List Char)), github_name lk u = some fixed := by
    intro lk
    unfold github_name
    rw [h]
  exact ⟨e lookup1, (e lookup1).trans (e lookup2).symm⟩

/-- Witness for C7 at `renovate` with two different collaborator behaviors. -/
theorem github_name_bot_witness :
    github_name (fun _ => none) ("renovate".toList) = some ("Renovate Bot".toList) ∧
    github_name (fun _ => none) ("renovate".toList)
      = github_name (fun _ => some (some ("Impostor".toList))) ("renovate".toList) :=
  github_name_bot_no_external_call (fun _ => none) (fun _ => some (some ("Impostor".toList)))
    ("renovate".toList) ("Renovate Bot".toList) (by decide)

/-- Claim C8 counterexample: the changelog tool does not reject an argument
count that exceeds a subcommand's shape: with four argv entries it proceeds
instead of printing usage. -/
theorem changelog_excess_args_counterexample :
    changelog_dispatch ["changelog_helper.py", "usernames", "CHANGELOG.md", "extra"]
      = ChAction.run "usernames" "CHANGELOG.md" ∧
    ["changelog_helper.py", "usernames", "CHANGELOG.md", "extra"].length ≠ 3 := by decide

/-- Claim C8 (amended): both tools print usage and exit non-zero, before any
file read or external invocation, on an unrecognized subcommand, and on
missing arguments; `sync-dist.py` also rejects excess positional arguments,
while the changelog tool silently ignores arguments beyond `sys.argv[2]`. -/
theorem usage_validation_amended :
    (∀ argv : List String, argv.length < 3 → changelog_dispatch argv = ChAction.usage) ∧
    (∀ argv : List String, 3 ≤ argv.length → argv.getD 1 "" ≠ "usernames" →
      argv.getD 1 "" ≠ "replace-nums" → changelog_dispatch argv = ChAction.usage) ∧
    (∀ (argv : List String) (fs : String → Bool), sync_parse argv = none →
      sync_dist_run argv fs = [SAction.printUsage, SAction.exitCode 1]) ∧
    (∀ argv : List String, 2 ≤ argv.length → syncCommands.contains (argv.getD 1 "") = false →
      sync_parse argv = none) ∧
    (∀ fs : String → Bool, sync_dist_run ["sync-dist.py", "local-to-dev-archives"] fs
      = [SAction.printUsage, SAction.exitCode 1]) ∧
    (∀ argv : List String,
      (strContains (argv.getD 1 "") "archives" || strContains (argv.getD 1 "") "release")
        = true →
      (syncArgvAfterFlag argv).length ≠ 3 → sync_parse argv = none) ∧
    (∀ argv : List String,
      (strContains (argv.getD 1 "") "archives" || strContains (argv.getD 1 "") "release")
        = false →
      (syncArgvAfterFlag argv).length ≠ 2 → sync_parse argv = none) := by
  refine ⟨?_, ?_, ?_, ?_, ?_, ?_, ?_⟩
  · intro argv h
    unfold changelog_dispatch
    rw [if_pos h]
  · intro argv h hu hr
    unfold changelog_dispatch
    rw [if_neg (by omega)]
    simp only [if_neg hu, if_neg hr]
  · intro argv fs h
    unfold sync_dist_run
    rw [h]
  · intro argv h hc
    unfold sync_parse
    rw [if_neg (by omega), if_pos hc]
  · intro fs
    unfold sync_dist_run
    rw [show sync_parse ["sync-dist.py", "local-to-dev-archives"] = none from by decide]
  · intro argv hshape hlen
    unfold sync_parse
    by_cases h2 : argv.length < 2
    · rw [if_pos h2]
    · rw [if_neg h2]
      by_cases hc : syncCommands.contains (argv.getD 1 "") = false
      · rw [if_pos hc]
      · rw [if_neg hc, if_pos hshape, if_neg hlen]
  · intro argv hshape hlen
    have hcond : ¬((strContains (argv.getD 1 "") "archives"
        || strContains (argv.getD 1 "") "release") = true) := by
      rw [hshape]
      exact Bool.false_ne_true
    unfold sync_parse
    by_cases h2 : argv.length < 2
    · rw [if_pos h2]
    · rw [if_neg h2]
      by_cases hc : syncCommands.contains (argv.getD 1 "") = false
      · rw [if_pos hc]
      · rw [if_neg hc, if_neg hcond, if_neg hlen]

/-- Witness for C8's amended theorem: a concrete unknown subcommand, a
concrete missing version argument, and a concrete excess argument. -/
theorem usage_validation_witness :
    changelog_dispatch ["changelog_helper.py", "frobnicate", "CHANGELOG.md"] = ChAction.usage ∧
    sync_parse ["sync-dist.py", "local-to-dev-archives"] = none ∧
    sync_parse ["sync-dist.py", "dev-to-local", "extra"] = none :=
  ⟨usage_validation_amended.2.1 ["changelog_helper.py", "frobnicate", "CHANGELOG.md"]
     (by decide) (by decide) (by decide),
   usage_validation_amended.2.2.2.2.2.1 ["sync-dist.py", "local-to-dev-archives"]
     (by decide) (by decide),
   usage_validation_amended.2.2.2.2.2.2 ["sync-dist.py", "dev-to-local", "extra"]
     (by decide) (by decide)⟩

/-- Claim C9 counterexample: on an input holding the pull-request URL for 7
followed by a bare `#7`, the later `#7` substitution re-matches inside the
token that replaced the URL, so the final body holds `[pr[pr#7]]` at the
URL's position rather than `[pr#7]`. -/
theorem replace_nums_url_counterexample :
    (replace_nums ("https://github.com/rust-lang/rustup/pull/7 #7".toList)).1
      = "[pr[pr#7]] [pr#7]".toList ∧
    (replace_nums ("https://github.com/rust-lang/rustup/pull/7 #7".toList)).1
      ≠ "[pr#7] [pr#7]".toList := by decide

/-- Claim C9 (amended): every URL match of identifier `num` contributes a
footer line mapping `[pr#num]` to the full pull-request URL, and on an input
whose only reference is the URL (the spec's example) the URL occurrence in
the body is replaced by the token; a later match of an identifier sharing a
digit prefix may rewrite the inside of that token. -/
theorem replace_nums_url_amended :
    (∀ s num : List Char, (urlPfx, num) ∈ findRefs s →
       ∃ x y, (replace_nums s).2 = x ++ footerLine num ++ y) ∧
    replace_nums ("see https://github.com/rust-lang/rustup/pull/7".toList)
      = ("see [pr#7]".toList, footerLine ("7".toList)) := by
  constructor
  · intro s num h
    have h2 : (replace_nums s).2 = ((findRefs s).map (fun m => footerLine m.2)).flatten := by
      unfold replace_nums
      rw [replLoop_snd]
      simp
    have hm : footerLine num ∈ (findRefs s).map (fun m => footerLine m.2) :=
      List.mem_map_of_mem _ h
    obtain ⟨x, y, hxy⟩ := flatten_mem_decomp hm
    exact ⟨x, y, by rw [h2, hxy]⟩
  · decide

/-- Witness for C9's amended theorem at the spec's example input. -/
theorem replace_nums_url_witness :
    ∃ x y, (replace_nums ("see https://github.com/rust-lang/rustup/pull/7".toList)).2
      = x ++ footerLine ("7".toList) ++ y :=
  replace_nums_url_amended.1 ("see https://github.com/rust-lang/rustup/pull/7".toList)
    ("7".toList) (by decide)

/-- Claim C10: without the live flag, `dev-to-local` still mutates the local
filesystem: it removes the existing `local-rustup/dist`, recreates it before
the dry-run copy command runs, and later removes `local-rustup/rustup-init.sh`
and `local-rustup/www` — dry-run mode protects only remote state. -/
theorem sync_dev_to_local_mutates_local (fs : String → Bool)
    (h1 : fs "local-rustup/dist" = true)
    (h2 : fs "local-rustup/rustup-init.sh" = true)
    (h3 : fs "local-rustup/www" = true) :
    sync_dist_run ["sync-dist.py", "dev-to-local"] fs =
      [SAction.rmtree "local-rustup/dist",
       SAction.makedirs "local-rustup/dist",
       SAction.invoke (run_s3cmd_args false
         "aws s3 cp --recursive s3://dev-static-rust-lang-org/rustup/dist/ ./local-rustup/dist/"),
       SAction.removeFile "local-rustup/rustup-init.sh",
       SAction.invoke (run_s3cmd_args false
         "aws s3 cp s3://dev-static-rust-lang-org/rustup/rustup-init.sh ./local-rustup/rustup-init.sh"),
       SAction.rmtree "local-rustup/www",
       SAction.makedirs "local-rustup/www",
       SAction.invoke (run_s3cmd_args false
         "aws s3 cp --recursive s3://dev-static-rust-lang-org/rustup/www/ ./local-rustup/www/")] := by
  have hp : sync_parse ["sync-dist.py", "dev-to-local"] = some ("dev-to-local", none, false) := by
    decide
  unfold sync_dist_run
  rw [hp]
  simp [sync_body, h1, h2, h3, s3_bucket_of, dev_s3_bucket, main_s3cmd]
  decide

/-- Witness for C10 with a filesystem on which all three paths exist. -/
theorem sync_dev_to_local_witness :
    sync_dist_run ["sync-dist.py", "dev-to-local"] (fun _ => true) =
      [SAction.rmtree "local-rustup/dist",
       SAction.makedirs "local-rustup/dist",
       SAction.invoke (run_s3cmd_args false
         "aws s3 cp --recursive s3://dev-static-rust-lang-org/rustup/dist/ ./local-rustup/dist/"),
       SAction.removeFile "local-rustup/rustup-init.sh",
       SAction.invoke (run_s3cmd_args false
         "aws s3 cp s3://dev-static-rust-lang-org/rustup/rustup-init.sh ./local-rustup/rustup-init.sh"),
       SAction.rmtree "local-rustup/www",
       SAction.makedirs "local-rustup/www",
       SAction.invoke (run_s3cmd_args false
         "aws s3 cp --recursive s3://dev-static-rust-lang-org/rustup/www/ ./local-rustup/www/")] :=
  sync_dev_to_local_mutates_local (fun _ => true) rfl rfl rfl
